import Mathlib

/-!
Verification of the bookstore inventory manager `shelf_track.py`.

The program is a CLI CRUD application over an SQLite database with two
tables, `author (id, name, country)` and `book (id, title, author_id, qty)`.
We embed the database state as two Lean lists of rows and each record-store
operation as a pure state transformer, translated statement by statement
from the SQL the source executes.  SQLite-specific semantics that the
source relies on are modelled explicitly:

* `LIKE` (used by `search_books`) matches `%` against any character
  sequence and `_` against any single character, and compares all other
  characters case-insensitively for ASCII letters only (SQLite's default
  `LIKE`, no `ESCAPE`, no ICU).  This is `likeMatch` below.
* `INTEGER PRIMARY KEY` uniqueness: a duplicate-id `INSERT` raises
  `IntegrityError` and leaves the table unchanged.
* `CAST(book.id AS TEXT)` is the decimal representation of the id.
* Foreign keys are *not* enforced (the source never issues
  `PRAGMA foreign_keys = ON`); the author-existence check in `add_book`
  is the explicit `SELECT` the source performs.

Python-side input handling that the claims mention is modelled at ASCII
level: `str.strip()` is `py_strip`, `str.isdigit()` is
"non-empty and all decimal digits", `int` on a digit string is the
decimal value.
-/

/-- A row of the `author` table: `id INTEGER PRIMARY KEY, name TEXT NOT NULL,
country TEXT NOT NULL`. -/
structure AuthorRow where
  id : Nat
  name : String
  country : String
deriving DecidableEq

/-- A row of the `book` table: `id INTEGER PRIMARY KEY, title TEXT NOT NULL,
author_id INTEGER NOT NULL, qty INTEGER NOT NULL`. -/
structure BookRow where
  id : Nat
  title : String
  author_id : Nat
  qty : Nat
deriving DecidableEq

/-- The persisted database state: the two tables, rows in storage order. -/
structure DB where
  authors : List AuthorRow
  books : List BookRow
deriving DecidableEq

/-- The error kinds of the spec (section 7).  `ValueError` raised by the
validators corresponds to `InvalidFormat` / `EmptyField`, a primary-key
`IntegrityError` to `DuplicateId`, the failed author lookup in `add_book`
to `AuthorNotFound`, and a missing update/delete/lookup target to
`NotFound`. -/
inductive Err where
  | InvalidFormat
  | EmptyField
  | DuplicateId
  | AuthorNotFound
  | NotFound
deriving DecidableEq

deriving instance DecidableEq for Except

/-- Python `str.strip()` restricted to ASCII whitespace: drop leading and
trailing whitespace characters. -/
def py_strip (s : String) : String :=
  ⟨((s.data.dropWhile Char.isWhitespace).reverse.dropWhile
      Char.isWhitespace).reverse⟩

/-- Python `str.isdigit()` restricted to ASCII: true iff the string is
non-empty and every character is a decimal digit. -/
def py_isdigit (s : String) : Bool :=
  !s.isEmpty && s.data.all Char.isDigit

/-- The value `int(s)` computes on a string of decimal digits. -/
def str_digits_value (cs : List Char) : Nat :=
  cs.foldl (fun a c => 10 * a + (c.toNat - 48)) 0

/-- `check_id` (shelf_track.py lines 68-72): succeed with `int(input_str)`
iff `input_str.isdigit() and len(input_str) == 4`, otherwise raise
`ValueError` (= `InvalidFormat`). -/
def check_id (s : String) : Except Err Nat :=
  if py_isdigit s && s.length == 4 then
    Except.ok (str_digits_value s.data)
  else
    Except.error Err.InvalidFormat

/-- `add_author` (lines 92-111), record-store part: `INSERT INTO author`,
where a duplicate primary key raises `IntegrityError` (= `DuplicateId`)
and leaves the table unchanged.  Returns the post-state and the outcome. -/
def add_author (db : DB) (id : Nat) (name country : String) :
    DB × Except Err Unit :=
  if db.authors.any (fun a => a.id == id) then
    (db, Except.error Err.DuplicateId)
  else
    ({ db with authors := db.authors ++ [⟨id, name, country⟩] }, Except.ok ())

/-- `add_book` (lines 113-136), record-store part: first
`SELECT id FROM author WHERE id = ?`; if no row, report `AuthorNotFound`
and return without inserting.  Otherwise `INSERT INTO book`, where a
duplicate primary key raises `IntegrityError` (= `DuplicateId`). -/
def add_book (db : DB) (id : Nat) (title : String) (author_id qty : Nat) :
    DB × Except Err Unit :=
  if !db.authors.any (fun a => a.id == author_id) then
    (db, Except.error Err.AuthorNotFound)
  else if db.books.any (fun b => b.id == id) then
    (db, Except.error Err.DuplicateId)
  else
    ({ db with books := db.books ++ [⟨id, title, author_id, qty⟩] },
      Except.ok ())

/-- The lookup at the head of `update_book` (lines 149-155):
`SELECT book.title, author.id, author.name, author.country, book.qty
FROM book INNER JOIN author ON book.author_id = author.id
WHERE book.id = ?` with `fetchone()`. -/
def get_book_with_author (db : DB) (book_id : Nat) :
    Option (String × Nat × String × String × Nat) :=
  match db.books.find? (fun b => b.id == book_id) with
  | none => none
  | some b =>
    match db.authors.find? (fun a => b.author_id == a.id) with
    | none => none
    | some a => some (b.title, a.id, a.name, a.country, b.qty)

/-- The quantity branch of `update_book` (line 174):
`UPDATE book SET qty = ? WHERE id = ?`. -/
def update_book_quantity (db : DB) (id qty : Nat) : DB :=
  { db with
    books := db.books.map fun b =>
      if b.id == id then { b with qty := qty } else b }

/-- The author-details `UPDATE` of `update_book` (lines 185-186):
`UPDATE author SET name = ?, country = ? WHERE id = ?`. -/
def update_author_details (db : DB) (author_id : Nat)
    (name country : String) : DB :=
  { db with
    authors := db.authors.map fun a =>
      if a.id == author_id then { a with name := name, country := country }
      else a }

/-- The author-details branch of the `update_book` sub-flow
(lines 147-188, choice `"3"`): look up the book joined with its author
(`NotFound` if absent), default a blank (stripped-empty) name/country
input to the looked-up current value, then update the author row. -/
def update_book_author_flow (db : DB) (book_id : Nat)
    (raw_name raw_country : String) : DB × Except Err Unit :=
  match get_book_with_author db book_id with
  | none => (db, Except.error Err.NotFound)
  | some (_, author_id, author_name, author_country, _) =>
    let new_name :=
      if py_strip raw_name = "" then author_name else py_strip raw_name
    let new_country :=
      if py_strip raw_country = "" then author_country else py_strip raw_country
    (update_author_details db author_id new_name new_country, Except.ok ())

/-- All suffixes of a character list, longest first (the list itself down
to `[]`). -/
def suffixes : List Char → List (List Char)
  | [] => [[]]
  | t :: ts => (t :: ts) :: suffixes ts

/-- SQLite default `LIKE`: `%` matches any (possibly empty) character
sequence — rendered as "some suffix of the text matches the rest of the
pattern" — `_` matches any single character, and every other pattern
character matches a text character iff they agree after ASCII
lower-casing (`Char.toLower` folds exactly the ASCII range, like SQLite
without ICU). -/
def likeMatch : List Char → List Char → Bool
  | [], ts => ts.isEmpty
  | p :: ps, ts =>
    if p = '%' then (suffixes ts).any fun r => likeMatch ps r
    else
      match ts with
      | [] => false
      | t :: ts => if p = '_' then likeMatch ps ts
                   else (p.toLower == t.toLower) && likeMatch ps ts

/-- The pattern `f"%{keyword}%"` that `search_books` binds to each `LIKE`. -/
def likePattern (kw : List Char) : List Char :=
  '%' :: (kw ++ ['%'])

/-- The `WHERE` clause of the search query (line 227): the pattern is
matched against the title, the author name, and `CAST(book.id AS TEXT)`. -/
def book_matches (kw : List Char) (b : BookRow) (a : AuthorRow) : Bool :=
  likeMatch (likePattern kw) b.title.data ||
  likeMatch (likePattern kw) a.name.data ||
  likeMatch (likePattern kw) (toString b.id).data

/-- The `FROM book JOIN author ON book.author_id = author.id` inner join:
every (book, author) pair whose ids agree. -/
def joinPairs (db : DB) : List (BookRow × AuthorRow) :=
  db.books.flatMap fun b =>
    (db.authors.filter fun a => b.author_id == a.id).map fun a => (b, a)

/-- `search_books` (lines 218-229): strip the keyword, then return
`book.id, book.title, author.name, author.country, book.qty` for every
joined row where the `%keyword%` pattern `LIKE`-matches the title, the
author name, or the id cast to text. -/
def search_books (db : DB) (raw : String) :
    List (Nat × String × String × String × Nat) :=
  let kw := (py_strip raw).data
  ((joinPairs db).filter fun p => book_matches kw p.1 p.2).map fun p =>
    (p.1.id, p.1.title, p.2.name, p.2.country, p.1.qty)

/-- Comparison used by `ORDER BY book.id` on joined rows. -/
def byBookId (p q : BookRow × AuthorRow) : Prop :=
  p.1.id ≤ q.1.id

instance : DecidableRel byBookId :=
  fun p q => inferInstanceAs (Decidable (p.1.id ≤ q.1.id))

instance : IsTotal (BookRow × AuthorRow) byBookId :=
  ⟨fun p q => Nat.le_total p.1.id q.1.id⟩

instance : IsTrans (BookRow × AuthorRow) byBookId :=
  ⟨fun _ _ _ h h' => Nat.le_trans h h'⟩

/-- `view_all_books` (lines 239-249): `SELECT book.title, author.name,
author.country FROM book JOIN author ON book.author_id = author.id
ORDER BY book.id`. -/
def view_all_books (db : DB) : List (String × String × String) :=
  (List.insertionSort byBookId (joinPairs db)).map fun p =>
    (p.1.title, p.2.name, p.2.country)

/-- The five seed authors of `setup_db` (lines 42-48). -/
def seedAuthors : List AuthorRow :=
  [⟨1290, "J.K. Rowling", "England"⟩,
   ⟨8937, "Charles Dickens", "England"⟩,
   ⟨2356, "C.S. Lewis", "Ireland"⟩,
   ⟨6380, "J.R.R. Tolkien", "South Africa"⟩,
   ⟨5620, "Lewis Carroll", "England"⟩]

/-- The five seed books of `setup_db` (lines 54-60). -/
def seedBooks : List BookRow :=
  [⟨3001, "A Tale of Two Cities", 8937, 30⟩,
   ⟨3002, "Harry Potter and the Philosopher\x27s Stone", 1290, 40⟩,
   ⟨3003, "The Lion, the Witch and the Wardrobe", 2356, 25⟩,
   ⟨3004, "The Lord of the Rings", 6380, 37⟩,
   ⟨3005, "Alice’s Adventures in Wonderland", 5620, 12⟩]

/-- `setup_db` (lines 14-62), data part: each table is seeded exactly when
its `COUNT(*)` is zero (table creation is schema-level and stateless
here). -/
def setup_db (db : DB) : DB :=
  { authors := if db.authors.length = 0 then seedAuthors else db.authors,
    books := if db.books.length = 0 then seedBooks else db.books }

/-- The keyword occurs in the text as a substring up to the store's
case folding: some contiguous segment of `ts` equals `kw` after ASCII
lower-casing of both. -/
def caselessSubstr (kw ts : List Char) : Prop :=
  ∃ l u v, ts = l ++ u ++ v ∧ u.map Char.toLower = kw.map Char.toLower

/-- The store state right after first-run seeding: both tables seeded. -/
def db0 : DB :=
  ⟨seedAuthors, seedBooks⟩

/-- Primary-key and referential invariants every reachable store state
satisfies: ids are unique per table (SQLite `PRIMARY KEY`), and every
book's `author_id` has a matching author row (checked by `add_book`,
established by the seed data, and never destroyed: authors cannot be
deleted and author ids are never rewritten). -/
def WF (db : DB) : Prop :=
  (db.authors.map AuthorRow.id).Nodup ∧
  (db.books.map BookRow.id).Nodup ∧
  ∀ b ∈ db.books, ∃ a ∈ db.authors, a.id = b.author_id

instance : DecidablePred WF := fun db =>
  decidable_of_iff
    ((db.authors.map AuthorRow.id).Nodup ∧
     (db.books.map BookRow.id).Nodup ∧
     ∀ b ∈ db.books, ∃ a ∈ db.authors, a.id = b.author_id)
    Iff.rfl

/-! ## Helper lemmas -/

theorem mem_suffixes (ts r : List Char) :
    r ∈ suffixes ts ↔ ∃ l, ts = l ++ r := by
  induction ts with
  | nil =>
    simp only [suffixes, List.mem_singleton]
    constructor
    · rintro rfl
      exact ⟨[], rfl⟩
    · rintro ⟨l, hl⟩
      exact (List.append_eq_nil.mp hl.symm).2
  | cons t ts ih =>
    simp only [suffixes, List.mem_cons, ih]
    constructor
    · rintro (rfl | ⟨l, hl⟩)
      · exact ⟨[], rfl⟩
      · exact ⟨t :: l, by rw [hl]; rfl⟩
    · rintro ⟨l, hl⟩
      cases l with
      | nil => exact Or.inl (by simpa using hl.symm)
      | cons x l =>
        injection hl with h1 h2
        exact Or.inr ⟨l, h2⟩

theorem likeMatch_pct (ps ts : List Char) :
    likeMatch ('%' :: ps) ts = true ↔
      ∃ l r, ts = l ++ r ∧ likeMatch ps r = true := by
  have hunf : likeMatch ('%' :: ps) ts =
      (suffixes ts).any fun r => likeMatch ps r := by
    simp [likeMatch]
  rw [hunf, List.any_eq_true]
  constructor
  · rintro ⟨r, hr, hm⟩
    obtain ⟨l, hl⟩ := (mem_suffixes ts r).mp hr
    exact ⟨l, r, hl, hm⟩
  · rintro ⟨l, r, hl, hm⟩
    exact ⟨r, (mem_suffixes ts r).mpr ⟨l, hl⟩, hm⟩

theorem likeMatch_pct_single (ts : List Char) : likeMatch ['%'] ts = true := by
  have : likeMatch ([] : List Char) [] = true := rfl
  exact (likeMatch_pct [] ts).mpr ⟨ts, [], by simp, this⟩

theorem likeMatch_plain (kw ps : List Char) :
    ∀ ts, (∀ c ∈ kw, ¬(c = '%' ∨ c = '_')) →
      (likeMatch (kw ++ ps) ts = true ↔
        ∃ u v, ts = u ++ v ∧ u.map Char.toLower = kw.map Char.toLower ∧
          likeMatch ps v = true) := by
  induction kw with
  | nil =>
    intro ts _
    simp only [List.nil_append, List.map_nil]
    constructor
    · intro h
      exact ⟨[], ts, rfl, rfl, h⟩
    · rintro ⟨u, v, hts, hu, hm⟩
      obtain rfl := List.map_eq_nil_iff.mp hu
      simp only [List.nil_append] at hts
      rw [hts]
      exact hm
  | cons c kw ih =>
    intro ts h
    have hc : ¬(c = '%' ∨ c = '_') := h c (List.mem_cons_self c kw)
    have hc1 : c ≠ '%' := fun hx => hc (Or.inl hx)
    have hc2 : c ≠ '_' := fun hx => hc (Or.inr hx)
    have hkw : ∀ x ∈ kw, ¬(x = '%' ∨ x = '_') :=
      fun x hx => h x (List.mem_cons_of_mem c hx)
    cases ts with
    | nil =>
      simp only [List.cons_append, likeMatch, if_neg hc1]
      constructor
      · intro hx
        exact absurd hx (by simp)
      · rintro ⟨u, v, hts, hu, _⟩
        obtain ⟨hl, _⟩ := List.append_eq_nil.mp hts.symm
        subst hl
        simp at hu
    | cons t ts =>
      simp only [List.cons_append, likeMatch, if_neg hc1, if_neg hc2,
        Bool.and_eq_true, beq_iff_eq, List.map_cons]
      constructor
      · rintro ⟨heq, hm⟩
        obtain ⟨u, v, hts, hu, hmm⟩ := (ih ts hkw).mp hm
        exact ⟨t :: u, v, by rw [hts]; rfl, by simp [heq, hu], hmm⟩
      · rintro ⟨u, v, hts, hu, hmm⟩
        cases u with
        | nil => simp at hu
        | cons x u =>
          injection hts with h1 h2
          simp only [List.map_cons, List.cons.injEq] at hu
          subst h1
          exact ⟨hu.1.symm, (ih ts hkw).mpr ⟨u, v, h2, hu.2, hmm⟩⟩

theorem likeMatch_substr (kw ts : List Char)
    (h : ∀ c ∈ kw, ¬(c = '%' ∨ c = '_')) :
    likeMatch (likePattern kw) ts = true ↔ caselessSubstr kw ts := by
  unfold likePattern caselessSubstr
  rw [likeMatch_pct]
  constructor
  · rintro ⟨l, r, hts, hm⟩
    obtain ⟨u, v, hr, hu, _⟩ := (likeMatch_plain kw ['%'] r h).mp hm
    refine ⟨l, u, v, ?_, hu⟩
    rw [hts, hr, List.append_assoc]
  · rintro ⟨l, u, v, hts, hu⟩
    refine ⟨l, u ++ v, ?_,
      (likeMatch_plain kw ['%'] (u ++ v) h).mpr
        ⟨u, v, rfl, hu, likeMatch_pct_single v⟩⟩
    rw [hts, List.append_assoc]

/-! ## Claim theorems -/

/-- C2: `check_id` succeeds exactly on strings of decimal digits of length
4 (leading zeros allowed), returning the parsed decimal value of the
string, and fails with `InvalidFormat` (`ValueError`) on every other
string — wrong length, non-digit, or empty. -/
theorem check_id_spec (s : String) :
    ((s.length = 4 ∧ ∀ c ∈ s.data, c.isDigit) →
       check_id s = Except.ok (str_digits_value s.data)) ∧
    (¬(s.length = 4 ∧ ∀ c ∈ s.data, c.isDigit) →
       check_id s = Except.error Err.InvalidFormat) := by
  constructor
  · rintro ⟨h4, hd⟩
    have hs : s ≠ "" := by
      intro h
      rw [h] at h4
      exact absurd h4 (by decide)
    have hne : s.isEmpty = false := by
      cases hq : s.isEmpty
      · rfl
      · exact absurd ((String.isEmpty_iff s).mp hq) hs
    have hall : s.data.all Char.isDigit = true :=
      List.all_eq_true.mpr fun c hc => hd c hc
    simp [check_id, py_isdigit, hne, hall, h4]
  · intro h
    unfold check_id
    split
    · rename_i hc
      exfalso
      apply h
      simp only [py_isdigit, Bool.and_eq_true, Bool.not_eq_true',
        List.all_eq_true, beq_iff_eq] at hc
      exact ⟨hc.2, hc.1.2⟩
    · rfl

/-- Witness for C2: `"0042"` (leading zeros) parses to 42, `"12a4"` fails. -/
theorem check_id_spec_w :
    (("0042".length = 4 ∧ ∀ c ∈ "0042".data, c.isDigit) ∧
       check_id "0042" = Except.ok 42) ∧
    (¬("12a4".length = 4 ∧ ∀ c ∈ "12a4".data, c.isDigit) ∧
       check_id "12a4" = Except.error Err.InvalidFormat) := by
  refine ⟨⟨by decide, ?_⟩, by decide, (check_id_spec "12a4").2 (by decide)⟩
  rw [(check_id_spec "0042").1 (by decide)]
  decide

/-- C3: inserting a book whose `author_id` has no matching author row
reports `AuthorNotFound` and leaves the whole state — in particular the
book table — unchanged, for every state and every such insertion (so the
existence check fires before the insert, even when the book id would also
collide). -/
theorem add_book_author_missing (db : DB) (id : Nat) (title : String)
    (author_id qty : Nat)
    (h : db.authors.any (fun a => a.id == author_id) = false) :
    add_book db id title author_id qty =
      (db, Except.error Err.AuthorNotFound) := by
  simp [add_book, h]

/-- Witness for C3: author id 9999 is absent from the seeded store, so the
insert reports `AuthorNotFound` and the state is returned unchanged. -/
theorem add_book_author_missing_w :
    db0.authors.any (fun a => a.id == 9999) = false ∧
    add_book db0 3006 "Dombey and Son" 9999 5 =
      (db0, Except.error Err.AuthorNotFound) :=
  ⟨by decide,
   add_book_author_missing db0 3006 "Dombey and Son" 9999 5 (by decide)⟩

/-- C4 counterexample: in the seeded store, inserting a book whose id 3001
already exists but whose `author_id` 9999 is absent does *not* fail with
`DuplicateId`: the author check fires first and `AuthorNotFound` is
reported instead, refuting the claim as stated. -/
theorem add_book_duplicate_id_cex :
    db0.books.any (fun b => b.id == 3001) = true ∧
    (add_book db0 3001 "Martin Chuzzlewit" 9999 1).2 ≠
      Except.error Err.DuplicateId ∧
    (add_book db0 3001 "Martin Chuzzlewit" 9999 1).2 =
      Except.error Err.AuthorNotFound := by
  refine ⟨by decide, by decide, by decide⟩

/-- C4 (amended): an insert whose id already exists in its table fails
with `DuplicateId` and leaves the store unchanged — unconditionally for
`add_author`, and for `add_book` provided its `author_id` exists (when the
author is absent, `add_book` reports `AuthorNotFound` instead, the state
still unchanged). -/
theorem duplicate_id_insert_spec :
    (∀ (db : DB) (id : Nat) (name country : String),
       db.authors.any (fun a => a.id == id) = true →
       add_author db id name country = (db, Except.error Err.DuplicateId)) ∧
    (∀ (db : DB) (id : Nat) (title : String) (author_id qty : Nat),
       db.authors.any (fun a => a.id == author_id) = true →
       db.books.any (fun b => b.id == id) = true →
       add_book db id title author_id qty =
         (db, Except.error Err.DuplicateId)) := by
  constructor
  · intro db id name country h
    simp [add_author, h]
  · intro db id title author_id qty ha hb
    simp [add_book, ha, hb]

/-- Witness for the amended C4 in the seeded store: re-inserting author id
1290 and book id 3001 (with existing author 1290) both fail with
`DuplicateId` and leave the state intact. -/
theorem duplicate_id_insert_spec_w :
    add_author db0 1290 "Somebody Else" "Nowhere" =
      (db0, Except.error Err.DuplicateId) ∧
    add_book db0 3001 "Another Tale" 1290 2 =
      (db0, Except.error Err.DuplicateId) :=
  ⟨duplicate_id_insert_spec.1 db0 1290 "Somebody Else" "Nowhere" (by decide),
   duplicate_id_insert_spec.2 db0 3001 "Another Tale" 1290 2
     (by decide) (by decide)⟩

/-- C6: `setup_db` seeds each table independently and only when that table
is empty: the seed sets have exactly 5 authors and 5 books, every seed
book references a seed author, an empty table is filled with exactly its
seed set, a non-empty table is left untouched, and a rerun changes
nothing further. -/
theorem setup_db_seeding_spec :
    seedAuthors.length = 5 ∧ seedBooks.length = 5 ∧
    (∀ b ∈ seedBooks, seedAuthors.any (fun a => a.id == b.author_id) = true) ∧
    (∀ db : DB, db.authors = [] → (setup_db db).authors = seedAuthors) ∧
    (∀ db : DB, db.authors ≠ [] → (setup_db db).authors = db.authors) ∧
    (∀ db : DB, db.books = [] → (setup_db db).books = seedBooks) ∧
    (∀ db : DB, db.books ≠ [] → (setup_db db).books = db.books) ∧
    (∀ db : DB, setup_db (setup_db db) = setup_db db) := by
  refine ⟨by decide, by decide, by decide, ?_, ?_, ?_, ?_, ?_⟩
  · intro db h
    simp [setup_db, h]
  · intro db h
    have hx : db.authors.length ≠ 0 := by
      simpa [List.length_eq_zero] using h
    simp [setup_db, hx]
  · intro db h
    simp [setup_db, h]
  · intro db h
    have hx : db.books.length ≠ 0 := by
      simpa [List.length_eq_zero] using h
    simp [setup_db, hx]
  · intro db
    have ha : seedAuthors.length ≠ 0 := by decide
    have hb : seedBooks.length ≠ 0 := by decide
    by_cases h1 : db.authors.length = 0 <;> by_cases h2 : db.books.length = 0 <;>
      simp [setup_db, h1, h2, ha, hb]

/-- Witness for C6: seeding a fresh store fills both seed sets; rerunning
on the seeded store `db0` touches neither table. -/
theorem setup_db_seeding_spec_w :
    (setup_db ⟨[], []⟩).authors = seedAuthors ∧
    (setup_db ⟨[], []⟩).books = seedBooks ∧
    (setup_db db0).authors = db0.authors ∧
    (setup_db db0).books = db0.books :=
  ⟨setup_db_seeding_spec.2.2.2.1 ⟨[], []⟩ rfl,
   setup_db_seeding_spec.2.2.2.2.2.1 ⟨[], []⟩ rfl,
   setup_db_seeding_spec.2.2.2.2.1 db0 (by decide),
   setup_db_seeding_spec.2.2.2.2.2.2.1 db0 (by decide)⟩

/-- C7: updating the quantity of an existing book changes only that
book's `qty`: the author table is untouched, the book table keeps its
length, every row keeps its id, title and author_id, rows with a
different id are completely unchanged, the targeted row gets the new
quantity, and the updated copy of the matched row is stored. -/
theorem update_book_quantity_frame (db : DB) (id qty : Nat)
    (hex : db.books.any (fun b => b.id == id) = true) :
    (update_book_quantity db id qty).authors = db.authors ∧
    (update_book_quantity db id qty).books.length = db.books.length ∧
    (∀ i : Fin db.books.length,
      ∃ hlt : i.1 < (update_book_quantity db id qty).books.length,
        ((update_book_quantity db id qty).books.get ⟨i.1, hlt⟩).id =
          (db.books.get i).id ∧
        ((update_book_quantity db id qty).books.get ⟨i.1, hlt⟩).title =
          (db.books.get i).title ∧
        ((update_book_quantity db id qty).books.get ⟨i.1, hlt⟩).author_id =
          (db.books.get i).author_id ∧
        ((db.books.get i).id ≠ id →
          (update_book_quantity db id qty).books.get ⟨i.1, hlt⟩ =
            db.books.get i) ∧
        ((db.books.get i).id = id →
          ((update_book_quantity db id qty).books.get ⟨i.1, hlt⟩).qty =
            qty)) ∧
    (∃ b ∈ db.books, b.id = id ∧
       { b with qty := qty } ∈ (update_book_quantity db id qty).books) := by
  refine ⟨rfl, by simp [update_book_quantity], ?_, ?_⟩
  · intro i
    have hlt : i.1 < (update_book_quantity db id qty).books.length := by
      simp only [update_book_quantity, List.length_map]
      exact i.2
    refine ⟨hlt, ?_⟩
    have hget : (update_book_quantity db id qty).books.get ⟨i.1, hlt⟩ =
        if (db.books.get i).id == id then { db.books.get i with qty := qty }
        else db.books.get i := by
      simp [update_book_quantity, List.get_eq_getElem, List.getElem_map]
    by_cases hid : (db.books.get i).id = id
    · rw [hget, if_pos (by simpa using hid)]
      exact ⟨rfl, rfl, rfl, fun hne => absurd hid hne, fun _ => rfl⟩
    · rw [hget, if_neg (by simpa using hid)]
      exact ⟨rfl, rfl, rfl, fun _ => rfl, fun hx => absurd hx hid⟩
  · obtain ⟨b, hb, hp⟩ := List.any_eq_true.mp hex
    refine ⟨b, hb, by simpa using hp, ?_⟩
    exact List.mem_map.mpr ⟨b, hb, by simp [hp]⟩

/-- Witness for C7: book 3002 exists in the seeded store; updating its
quantity to 99 keeps the authors, the book count, and stores the row with
only `qty` changed. -/
theorem update_book_quantity_frame_w :
    db0.books.any (fun b => b.id == 3002) = true ∧
    (update_book_quantity db0 3002 99).authors = db0.authors ∧
    (update_book_quantity db0 3002 99).books.length = db0.books.length ∧
    (∃ b ∈ db0.books, b.id = 3002 ∧
       { b with qty := 99 } ∈ (update_book_quantity db0 3002 99).books) :=
  ⟨by decide,
   (update_book_quantity_frame db0 3002 99 (by decide)).1,
   (update_book_quantity_frame db0 3002 99 (by decide)).2.1,
   (update_book_quantity_frame db0 3002 99 (by decide)).2.2.2⟩

/-- C5: for a fresh book id and an existing author, a successful
`add_book` followed by the join-by-book-id lookup returns exactly the
inserted title, the author id, the author's stored name and country, and
the inserted quantity. -/
theorem add_book_get_roundtrip (db : DB) (id : Nat) (title : String)
    (author_id qty : Nat) (a : AuthorRow)
    (hfresh : db.books.any (fun b => b.id == id) = false)
    (hfind : db.authors.find? (fun x => author_id == x.id) = some a) :
    (add_book db id title author_id qty).2 = Except.ok () ∧
    get_book_with_author (add_book db id title author_id qty).1 id =
      some (title, a.id, a.name, a.country, qty) := by
  have hmem : a ∈ db.authors := List.mem_of_find?_eq_some hfind
  have hpred := List.find?_some hfind
  have hpred2 : author_id = a.id := by simpa using hpred
  have hany : db.authors.any (fun x => x.id == author_id) = true :=
    List.any_eq_true.mpr ⟨a, hmem, by simp [hpred2]⟩
  have hstate : add_book db id title author_id qty =
      ({ db with books := db.books ++ [⟨id, title, author_id, qty⟩] },
        Except.ok ()) := by
    simp [add_book, hany, hfresh]
  have hnone : db.books.find? (fun b => b.id == id) = none := by
    apply List.find?_eq_none.mpr
    intro b hb
    have := List.any_eq_false.mp hfresh b hb
    simpa using this
  refine ⟨by rw [hstate], ?_⟩
  rw [hstate]
  have hfind2 :
      (db.books ++ [⟨id, title, author_id, qty⟩] : List BookRow).find?
        (fun b => b.id == id) = some ⟨id, title, author_id, qty⟩ := by
    rw [List.find?_append, hnone]
    simp [List.find?]
  simp [get_book_with_author, hfind2, hfind]

/-- Witness for C5: adding book 3006 by author 1290 to the seeded store
succeeds, and the lookup returns the inserted values joined with
J.K. Rowling's stored attributes. -/
theorem add_book_get_roundtrip_w :
    (add_book db0 3006 "New Title" 1290 5).2 = Except.ok () ∧
    get_book_with_author (add_book db0 3006 "New Title" 1290 5).1 3006 =
      some ("New Title", 1290, "J.K. Rowling", "England", 5) := by
  have h := add_book_get_roundtrip db0 3006 "New Title" 1290 5
    ⟨1290, "J.K. Rowling", "England"⟩ (by decide) (by decide)
  exact h

theorem mem_joinPairs (db : DB) (p : BookRow × AuthorRow) :
    p ∈ joinPairs db ↔
      p.1 ∈ db.books ∧ p.2 ∈ db.authors ∧ p.1.author_id = p.2.id := by
  unfold joinPairs
  rw [List.mem_flatMap]
  constructor
  · rintro ⟨b, hb, hmem⟩
    obtain ⟨a, haf, heq⟩ := List.mem_map.mp hmem
    obtain ⟨ha, hcond⟩ := List.mem_filter.mp haf
    subst heq
    exact ⟨hb, ha, by simpa using hcond⟩
  · rintro ⟨hb, ha, hid⟩
    exact ⟨p.1, hb,
      List.mem_map.mpr ⟨p.2, List.mem_filter.mpr ⟨ha, by simpa using hid⟩,
        rfl⟩⟩

/-- C9: with a keyword that strips to empty, the `%%` pattern matches
every string, so `search_books` returns exactly the inner join: every
book whose `author_id` has a matching author row, and nothing else. -/
theorem search_books_empty_keyword (db : DB) (raw : String)
    (h : py_strip raw = "") (r : Nat × String × String × String × Nat) :
    r ∈ search_books db raw ↔
      ∃ b ∈ db.books, ∃ a ∈ db.authors, b.author_id = a.id ∧
        r = (b.id, b.title, a.name, a.country, b.qty) := by
  have hkw : (py_strip raw).data = [] := by rw [h]
  have hmatch : ∀ p : BookRow × AuthorRow,
      book_matches (py_strip raw).data p.1 p.2 = true := by
    intro p
    rw [hkw]
    have h1 : likeMatch (likePattern []) p.1.title.data = true :=
      (likeMatch_pct ['%'] p.1.title.data).mpr
        ⟨[], p.1.title.data, rfl, likeMatch_pct_single _⟩
    simp only [book_matches, Bool.or_eq_true]
    exact Or.inl (Or.inl h1)
  have hfilter : (joinPairs db).filter
      (fun p => book_matches (py_strip raw).data p.1 p.2) = joinPairs db :=
    List.filter_eq_self.mpr fun p _ => hmatch p
  simp only [search_books]
  rw [hfilter, List.mem_map]
  constructor
  · rintro ⟨p, hpj, hr⟩
    obtain ⟨hb, ha, hid⟩ := (mem_joinPairs db p).mp hpj
    exact ⟨p.1, hb, p.2, ha, hid, hr.symm⟩
  · rintro ⟨b, hb, a, ha, hid, hr⟩
    exact ⟨(b, a), (mem_joinPairs db (b, a)).mpr ⟨hb, ha, hid⟩, hr.symm⟩

/-- Witness for C9: a whitespace keyword returns the join row for seed
book 3001. -/
theorem search_books_empty_keyword_w :
    py_strip "  " = "" ∧
    (3001, "A Tale of Two Cities", "Charles Dickens", "England", 30) ∈
      search_books db0 "  " := by
  refine ⟨by decide, ?_⟩
  apply (search_books_empty_keyword db0 "  " (by decide) _).mpr
  exact ⟨⟨3001, "A Tale of Two Cities", 8937, 30⟩, by decide,
    ⟨8937, "Charles Dickens", "England"⟩, by decide, by decide, rfl⟩

/-- C1: for a wildcard-free keyword, a row is returned by
`search_books` iff it is the joined image of a book and its author where
the stripped keyword occurs — as a substring under the store's case
folding (SQLite's default ASCII-case-insensitive `LIKE`) — in the title,
the author name, or the decimal text of the book id; the iff gives that
all matching rows are returned and no others. -/
theorem search_books_keyword_substring (db : DB) (raw : String)
    (r : Nat × String × String × String × Nat)
    (hw : ∀ c ∈ (py_strip raw).data, ¬(c = '%' ∨ c = '_')) :
    r ∈ search_books db raw ↔
      ∃ b ∈ db.books, ∃ a ∈ db.authors, b.author_id = a.id ∧
        (caselessSubstr (py_strip raw).data b.title.data ∨
         caselessSubstr (py_strip raw).data a.name.data ∨
         caselessSubstr (py_strip raw).data (toString b.id).data) ∧
        r = (b.id, b.title, a.name, a.country, b.qty) := by
  have hm : ∀ (b : BookRow) (a : AuthorRow),
      book_matches (py_strip raw).data b a = true ↔
        (caselessSubstr (py_strip raw).data b.title.data ∨
         caselessSubstr (py_strip raw).data a.name.data ∨
         caselessSubstr (py_strip raw).data (toString b.id).data) := by
    intro b a
    simp only [book_matches, Bool.or_eq_true]
    rw [likeMatch_substr _ _ hw, likeMatch_substr _ _ hw,
      likeMatch_substr _ _ hw]
    exact or_assoc
  simp only [search_books]
  rw [List.mem_map]
  constructor
  · rintro ⟨p, hpf, hr⟩
    obtain ⟨hpj, hcond⟩ := List.mem_filter.mp hpf
    obtain ⟨hb, ha, hid⟩ := (mem_joinPairs db p).mp hpj
    exact ⟨p.1, hb, p.2, ha, hid, (hm p.1 p.2).mp hcond, hr.symm⟩
  · rintro ⟨b, hb, a, ha, hid, hsub, hr⟩
    exact ⟨(b, a),
      List.mem_filter.mpr ⟨(mem_joinPairs db (b, a)).mpr ⟨hb, ha, hid⟩,
        (hm b a).mpr hsub⟩, hr.symm⟩

/-- Witness for C1: the lower-case keyword "rowling" has no wildcards and
finds seed book 3002 through its author name, a case-folded substring
match. -/
theorem search_books_keyword_substring_w :
    (∀ c ∈ (py_strip "rowling").data, ¬(c = '%' ∨ c = '_')) ∧
    (3002, "Harry Potter and the Philosopher\x27s Stone", "J.K. Rowling",
      "England", 40) ∈ search_books db0 "rowling" := by
  refine ⟨by decide, ?_⟩
  apply (search_books_keyword_substring db0 "rowling" _ (by decide)).mpr
  refine ⟨⟨3002, "Harry Potter and the Philosopher\x27s Stone", 1290, 40⟩,
    by decide, ⟨1290, "J.K. Rowling", "England"⟩, by decide, by decide,
    Or.inr (Or.inl ?_), rfl⟩
  exact ⟨"J.K. ".data, "Rowling".data, [], by decide, by decide⟩

/-- C10: in the author-details branch of the update-book sub-flow, a
blank (whitespace-only) name or country input defaults to the author's
currently stored value, leaving that attribute unchanged (under the
primary-key uniqueness of author ids); the update writes only to the
author table — the book table is returned unchanged — and authors other
than the looked-up book's author are untouched. -/
theorem update_author_flow_defaults (db : DB) (book_id : Nat)
    (rn rc t : String) (aid : Nat) (an ac : String) (q : Nat)
    (hn : (db.authors.map AuthorRow.id).Nodup)
    (hget : get_book_with_author db book_id = some (t, aid, an, ac, q)) :
    (update_book_author_flow db book_id rn rc).2 = Except.ok () ∧
    (update_book_author_flow db book_id rn rc).1.books = db.books ∧
    (∀ a ∈ db.authors, a.id ≠ aid →
       a ∈ (update_book_author_flow db book_id rn rc).1.authors) ∧
    (∀ a ∈ db.authors, a.id = aid →
       { a with
         name := if py_strip rn = "" then a.name else py_strip rn,
         country := if py_strip rc = "" then a.country else py_strip rc } ∈
         (update_book_author_flow db book_id rn rc).1.authors) := by
  have hflow : update_book_author_flow db book_id rn rc =
      (update_author_details db aid
        (if py_strip rn = "" then an else py_strip rn)
        (if py_strip rc = "" then ac else py_strip rc), Except.ok ()) := by
    simp [update_book_author_flow, hget]
  cases hb : db.books.find? (fun b => b.id == book_id) with
  | none => simp [get_book_with_author, hb] at hget
  | some b =>
    cases ha : db.authors.find? (fun x => b.author_id == x.id) with
    | none => simp [get_book_with_author, hb, ha] at hget
    | some a0 =>
      have hget2 := hget
      simp only [get_book_with_author, hb, ha, Option.some.injEq,
        Prod.mk.injEq] at hget2
      obtain ⟨ht, haid, han, hac, hq⟩ := hget2
      have ha0mem : a0 ∈ db.authors := List.mem_of_find?_eq_some ha
      refine ⟨by rw [hflow], by rw [hflow]; rfl, ?_, ?_⟩
      · intro a hamem hane
        rw [hflow]
        simp only [update_author_details]
        exact List.mem_map.mpr ⟨a, hamem, by simp [hane]⟩
      · intro a hamem haeq
        have haa0 : a = a0 :=
          List.inj_on_of_nodup_map hn hamem ha0mem (by rw [haeq, haid])
        rw [hflow]
        simp only [update_author_details]
        apply List.mem_map.mpr
        refine ⟨a, hamem, ?_⟩
        rw [if_pos (by simpa using haeq)]
        rw [haa0, ← han, ← hac]

/-- Witness for C10 on the seeded store: for book 3002, a blank name
input keeps "J.K. Rowling" while the country input " Scotland " is
stored stripped; the book table is unchanged. -/
theorem update_author_flow_defaults_w :
    (⟨1290, "J.K. Rowling", "Scotland"⟩ : AuthorRow) ∈
      (update_book_author_flow db0 3002 "" " Scotland ").1.authors ∧
    (update_book_author_flow db0 3002 "" " Scotland ").1.books =
      db0.books := by
  have h := update_author_flow_defaults db0 3002 "" " Scotland "
    "Harry Potter and the Philosopher\x27s Stone" 1290 "J.K. Rowling"
    "England" 40 (by decide) (by decide)
  refine ⟨?_, h.2.1⟩
  have hm := h.2.2.2 ⟨1290, "J.K. Rowling", "England"⟩ (by decide) rfl
  simpa using hm

theorem filter_author_singleton (l : List AuthorRow)
    (hn : (l.map AuthorRow.id).Nodup) (aid : Nat) (a : AuthorRow)
    (ha : a ∈ l) (haid : a.id = aid) :
    l.filter (fun x => aid == x.id) = [a] := by
  induction l with
  | nil => cases ha
  | cons y l ih =>
    simp only [List.map_cons, List.nodup_cons] at hn
    obtain ⟨hy, hn2⟩ := hn
    rcases List.mem_cons.mp ha with rfl | hal
    · rw [List.filter_cons_of_pos (by simp [haid])]
      have hnil : l.filter (fun x => aid == x.id) = [] := by
        apply List.filter_eq_nil_iff.mpr
        intro x hx hc
        apply hy
        have hxid : x.id = a.id := by
          have : aid = x.id := by simpa using hc
          rw [← this, haid]
        rw [← hxid]
        exact List.mem_map.mpr ⟨x, hx, rfl⟩
      rw [hnil]
    · have hyne : (aid == y.id) = false := by
        apply beq_eq_false_iff_ne.mpr
        intro hx
        apply hy
        have : y.id = a.id := by rw [← hx, haid]
        rw [this]
        exact List.mem_map.mpr ⟨a, hal, rfl⟩
      rw [List.filter_cons_of_neg (by simp [hyne])]
      exact ih hn2 hal

theorem flatMap_map_fst (authors : List AuthorRow) :
    ∀ books : List BookRow, (authors.map AuthorRow.id).Nodup →
      (∀ b ∈ books, ∃ a ∈ authors, a.id = b.author_id) →
      ((books.flatMap fun b =>
          (authors.filter fun x => b.author_id == x.id).map
            fun a => (b, a)).map Prod.fst) = books := by
  intro books
  induction books with
  | nil => intro _ _; rfl
  | cons b bs ih =>
    intro hn hfk
    obtain ⟨a, ha, haid⟩ := hfk b (List.mem_cons_self b bs)
    have hsing := filter_author_singleton authors hn b.author_id a ha haid
    rw [List.flatMap_cons, hsing, List.map_append]
    have hhead : (([a].map fun x => (b, x)).map Prod.fst) = [b] := rfl
    rw [hhead, ih hn fun x hx => hfk x (List.mem_cons_of_mem b hx)]
    rfl

/-- C8: under the store's primary-key and referential invariants,
`view_all_books` is the projection of a list of joined (book, author)
rows that is strictly sorted by ascending book id, has exactly one row
per book, and pairs every book with its matching author row. -/
theorem view_all_books_sorted (db : DB) (hwf : WF db) :
    ∃ rows : List (BookRow × AuthorRow),
      view_all_books db =
        rows.map (fun p => (p.1.title, p.2.name, p.2.country)) ∧
      rows.Pairwise (fun p q => p.1.id < q.1.id) ∧
      rows.length = db.books.length ∧
      (∀ b ∈ db.books, ∃ a ∈ db.authors,
         a.id = b.author_id ∧ (b, a) ∈ rows) := by
  obtain ⟨hna, hnb, hfk⟩ := hwf
  have hperm : List.Perm (List.insertionSort byBookId (joinPairs db))
      (joinPairs db) := List.perm_insertionSort byBookId _
  have hsorted : (List.insertionSort byBookId (joinPairs db)).Pairwise
      byBookId := List.sorted_insertionSort byBookId _
  have hfst : (joinPairs db).map Prod.fst = db.books :=
    flatMap_map_fst db.authors db.books hna hfk
  refine ⟨List.insertionSort byBookId (joinPairs db), rfl, ?_, ?_, ?_⟩
  · have hids : ((List.insertionSort byBookId (joinPairs db)).map
        fun p => p.1.id).Nodup := by
      have h1 : List.Perm ((List.insertionSort byBookId (joinPairs db)).map
          fun p => p.1.id) ((joinPairs db).map fun p => p.1.id) :=
        hperm.map _
      have h2 : ((joinPairs db).map fun p => p.1.id) =
          db.books.map BookRow.id := by
        have h3 : ((joinPairs db).map Prod.fst).map BookRow.id =
            db.books.map BookRow.id := by rw [hfst]
        rw [List.map_map] at h3
        exact h3
      rw [h2] at h1
      exact (List.Perm.nodup_iff h1).mpr hnb
    have hne : (List.insertionSort byBookId (joinPairs db)).Pairwise
        fun p q => p.1.id ≠ q.1.id := List.pairwise_map.mp hids
    exact (hsorted.and hne).imp fun h => lt_of_le_of_ne h.1 h.2
  · rw [hperm.length_eq, ← hfst, List.length_map]
  · intro b hb
    obtain ⟨a, ha, haid⟩ := hfk b hb
    refine ⟨a, ha, haid, ?_⟩
    apply hperm.mem_iff.mpr
    exact (mem_joinPairs db (b, a)).mpr ⟨hb, ha, haid.symm⟩

/-- Witness for C8: the seeded store satisfies the invariants, so its
book listing is the projection of a strictly id-sorted join with one row
per seed book. -/
theorem view_all_books_sorted_w :
    WF db0 ∧
    ∃ rows : List (BookRow × AuthorRow),
      view_all_books db0 =
        rows.map (fun p => (p.1.title, p.2.name, p.2.country)) ∧
      rows.Pairwise (fun p q => p.1.id < q.1.id) ∧
      rows.length = db0.books.length ∧
      (∀ b ∈ db0.books, ∃ a ∈ db0.authors,
         a.id = b.author_id ∧ (b, a) ∈ rows) :=
  ⟨by decide, view_all_books_sorted db0 (by decide)⟩
